import Mathlib

set_option autoImplicit false

/-
  Verification development for the strapi-cost-optimizer backend.

  Shallow embedding of the credential-proxy / authentication-resolution layer:
  * SessionService (src/auth/services/session.service.ts)
  * ProxyUserService (src/proxy/proxy-user.service.ts)
  * ContentService name resolution (content.service.ts)
  * AzureEasyAuthStrategy and the auth guards
  * AuditService (src/content/audit.service.ts)

  JavaScript string-or-undefined/null values are modelled as Option String;
  JS truthiness of strings (empty string is falsy) is made explicit by the
  ts* helpers below.  In-process Maps are modelled as insertion-ordered
  association lists with unique keys, matching JS Map semantics.
-/

/-- JS truthiness of a string-or-undefined/null value: undefined, null and
the empty string are falsy. -/
def tsTruthy : Option String → Bool
  | none => false
  | some s => !(s == "")

/-- JS `a || b` on string-or-undefined values. -/
def tsOr (a b : Option String) : Option String :=
  if tsTruthy a then a else b

/-- JS `a || b` where the right operand is a plain string. -/
def tsOrStr (a : Option String) (b : String) : String :=
  match a with
  | some s => if s == "" then b else s
  | none => b

/-- JS `a || b` on two plain strings. -/
def jsOrSS (a b : String) : String :=
  if a == "" then b else a

/-- JS template-literal stringification of a possibly-undefined value. -/
def jsUndef (o : Option String) : String := o.getD "undefined"

/-- `listStartsWith l pat` holds when `pat` heads `l` (char-wise). -/
def listStartsWith : List Char → List Char → Bool
  | _, [] => true
  | [], _ :: _ => false
  | c :: cs, p :: ps => c == p && listStartsWith cs ps

/-- Substring search over char lists. -/
def listHasSub : List Char → List Char → Bool
  | [], pat => pat.isEmpty
  | c :: cs, pat => listStartsWith (c :: cs) pat || listHasSub cs pat

/-- JS `String.includes`. -/
def strIncludes (s pat : String) : Bool := listHasSub s.toList pat.toList

/-- JS `String.indexOf` for a single character, as an optional index. -/
def jsIndexOf (c : Char) : List Char → Option Nat
  | [] => none
  | x :: xs => if x == c then some 0 else (jsIndexOf c xs).map (· + 1)

/-- JS `String.toLowerCase` (ASCII, which covers the role and type names the
source compares). -/
def jsToLower (s : String) : String := String.mk (s.toList.map Char.toLower)

def jsIsSpaceChar (c : Char) : Bool := c == ' ' || c == '\t' || c == '\n' || c == '\r'

/-- JS `String.trim`. -/
def jsTrim (s : String) : String :=
  String.mk (((s.toList.dropWhile jsIsSpaceChar).reverse.dropWhile jsIsSpaceChar).reverse)

/-- JS `String.split` on the two-character separator used by `uid.split` in
the source (leftmost-first, like the JS original). -/
def splitOnDC : List Char → List (List Char)
  | [] => [[]]
  | ':' :: ':' :: rest => [] :: splitOnDC rest
  | c :: rest =>
    match splitOnDC rest with
    | [] => [[c]]
    | g :: gs => (c :: g) :: gs

/-- JS `String.split` on a comma, used for the Azure roles claim. -/
def splitOnComma : List Char → List (List Char)
  | [] => [[]]
  | ',' :: rest => [] :: splitOnComma rest
  | c :: rest =>
    match splitOnComma rest with
    | [] => [[c]]
    | g :: gs => (c :: g) :: gs

/-- JS `Map.get`. -/
def mapGet {β : Type} (m : List (String × β)) (k : String) : Option β :=
  match m with
  | [] => none
  | (k0, v) :: rest => if k0 == k then some v else mapGet rest k

/-- JS `Map.set`: replaces in place when the key exists, appends otherwise. -/
def mapSet {β : Type} (m : List (String × β)) (k : String) (v : β) : List (String × β) :=
  match m with
  | [] => [(k, v)]
  | (k0, v0) :: rest => if k0 == k then (k0, v) :: rest else (k0, v0) :: mapSet rest k v

/-- JS `Map.delete` (keys are unique in a Map, so deleting the first hit suffices). -/
def mapDelete {β : Type} (m : List (String × β)) (k : String) : List (String × β) :=
  match m with
  | [] => []
  | (k0, v0) :: rest => if k0 == k then rest else (k0, v0) :: mapDelete rest k

/- ------------------------------------------------------------------ -/
/- SessionService (src/auth/services/session.service.ts)              -/
/- ------------------------------------------------------------------ -/

structure SessionData where
  userId : String
  email : String
  username : String
  role : String
  authKey : Option String
  authType : String
  createdAt : Nat
  lastAccessedAt : Nat
deriving DecidableEq

/-- The in-memory session store: a JS Map keyed by sessionId. -/
abbrev SessionStore := List (String × SessionData)

/-- `SessionService.getUserSessions`: all session values belonging to a user. -/
def getUserSessions (sessions : SessionStore) (userId : String) : List SessionData :=
  (sessions.map Prod.snd).filter (fun s => s.userId == userId)

/-- One iteration of the body of `destroyUserSessions`: find the first entry
whose value belongs to `userId` and delete it by its key (Map keys are
unique, so this removes exactly that entry). -/
def deleteFirstUserSession (userId : String) : SessionStore → SessionStore
  | [] => []
  | (k, s) :: rest =>
    if s.userId == userId then rest else (k, s) :: deleteFirstUserSession userId rest

/-- `SessionService.destroyUserSessions`: snapshots the sessions of the user, then
runs the delete-first-match body once per snapshot element, returning the
snapshot length. -/
def destroyUserSessions (sessions : SessionStore) (userId : String) :
    Nat × SessionStore :=
  let n := (getUserSessions sessions userId).length
  (n, Nat.iterate (deleteFirstUserSession userId) n sessions)

theorem deleteFirstUserSession_no_match (userId : String) (k : String) (s : SessionData)
    (rest : SessionStore) (h : (s.userId == userId) = false) :
    deleteFirstUserSession userId ((k, s) :: rest) = (k, s) :: deleteFirstUserSession userId rest := by
  simp [deleteFirstUserSession, h]

theorem iterate_delete_cons (userId : String) (k : String) (s : SessionData)
    (rest : SessionStore) (h : (s.userId == userId) = false) (n : Nat) :
    Nat.iterate (deleteFirstUserSession userId) n ((k, s) :: rest)
      = (k, s) :: Nat.iterate (deleteFirstUserSession userId) n rest := by
  induction n generalizing rest with
  | zero => rfl
  | succ m ih =>
    show Nat.iterate (deleteFirstUserSession userId) m
        (deleteFirstUserSession userId ((k, s) :: rest)) = _
    rw [deleteFirstUserSession_no_match userId k s rest h]
    exact ih (deleteFirstUserSession userId rest)

theorem iterate_delete_eq_filter (userId : String) (l : SessionStore) :
    Nat.iterate (deleteFirstUserSession userId) ((getUserSessions l userId).length) l
      = l.filter (fun e => !(e.2.userId == userId)) := by
  induction l with
  | nil => rfl
  | cons e rest ih =>
    obtain ⟨k, s⟩ := e
    by_cases h : (s.userId == userId) = true
    · have hgs : getUserSessions ((k, s) :: rest) userId
          = s :: getUserSessions rest userId := by
        simp [getUserSessions, h]
      rw [hgs]
      show Nat.iterate (deleteFirstUserSession userId) _
          (deleteFirstUserSession userId ((k, s) :: rest)) = _
      have hdel : deleteFirstUserSession userId ((k, s) :: rest) = rest := by
        simp [deleteFirstUserSession, h]
      rw [hdel]
      simpa [List.filter, h] using ih
    · have h' : (s.userId == userId) = false := by
        cases hb : (s.userId == userId) with
        | true => exact absurd hb h
        | false => rfl
      have hgs : getUserSessions ((k, s) :: rest) userId
          = getUserSessions rest userId := by
        simp [getUserSessions, h']
      rw [hgs, iterate_delete_cons userId k s rest h']
      simpa [List.filter, h'] using congrArg (List.cons (k, s)) ih

theorem getUserSessions_filter_ne (userId : String) (l : SessionStore) :
    getUserSessions (l.filter (fun e => !(e.2.userId == userId))) userId = [] := by
  induction l with
  | nil => rfl
  | cons e rest ih =>
    obtain ⟨k, s⟩ := e
    by_cases h : (s.userId == userId) = true
    · simp [List.filter, h, ih]
    · have h' : (s.userId == userId) = false := by
        cases hb : (s.userId == userId) with
        | true => exact absurd hb h
        | false => rfl
      simp [List.filter, getUserSessions, h'] at ih ⊢

/-- C8: `destroyUserSessions(u)` returns the number of sessions `u` held,
afterwards `u` holds zero sessions, and the store afterwards is exactly the
original store with the sessions of `u` removed: the sessions of every
other user are unchanged and still present (in order). -/
theorem destroyUserSessions_spec (sessions : SessionStore) (u : String) :
    (destroyUserSessions sessions u).1 = (getUserSessions sessions u).length ∧
    (destroyUserSessions sessions u).2
      = sessions.filter (fun e => !(e.2.userId == u)) ∧
    getUserSessions (destroyUserSessions sessions u).2 u = [] := by
  refine ⟨rfl, iterate_delete_eq_filter u sessions, ?_⟩
  show getUserSessions
      (Nat.iterate (deleteFirstUserSession u) ((getUserSessions sessions u).length) sessions) u = []
  rw [iterate_delete_eq_filter u sessions]
  exact getUserSessions_filter_ne u sessions

/- ------------------------------------------------------------------ -/
/- ProxyUserService (src/proxy/proxy-user.service.ts)                 -/
/- ------------------------------------------------------------------ -/

structure CachedJWT where
  token : String
  expiresAt : Nat
deriving DecidableEq

structure ProxyUser where
  email : String
  password : String
  role : String
deriving DecidableEq

/-- The fixed cache window: 6 days in milliseconds. -/
def sixDaysMs : Nat := 6 * 24 * 60 * 60 * 1000

/-- `ProxyUserService.cacheProxyJWT`: store the token for `role` with an
expiry 6 days from now. -/
def cacheProxyJWT (now : Nat) (cache : List (String × CachedJWT)) (role : String)
    (jwt : String) : List (String × CachedJWT) :=
  mapSet cache role ⟨jwt, now + sixDaysMs⟩

structure ProxyJWTResult where
  result : Except String String
  cache : List (String × CachedJWT)
  authCalls : Nat

/-- The cold-cache tail of `getProxyJWT`: look up the proxy user for the
role, invoke the upstream authenticator (its outcome is the oracle
`authOutcome`), cache and return the fresh token.  `authCalls` counts
invocations of `authenticateProxyUser`. -/
def proxyAuthPath (now : Nat) (proxyUsers : List ProxyUser)
    (authOutcome : Except String String) (cache : List (String × CachedJWT))
    (role : String) : ProxyJWTResult :=
  match proxyUsers.find? (fun u => u.role == role) with
  | none => ⟨.error ("Proxy user for role " ++ role ++ " not found"), cache, 0⟩
  | some _ =>
    match authOutcome with
    | .ok jwt => ⟨.ok jwt, cacheProxyJWT now cache role jwt, 1⟩
    | .error m =>
      ⟨.error ("Failed to authenticate proxy user for role " ++ role ++ ": " ++ m), cache, 1⟩

/-- `ProxyUserService.getProxyJWT`: serve the cached token while
`now < expiresAt`; on expiry delete the entry and re-authenticate; on a
cold cache authenticate and store. -/
def getProxyJWT (now : Nat) (proxyUsers : List ProxyUser)
    (authOutcome : Except String String) (cache : List (String × CachedJWT))
    (role : String) : ProxyJWTResult :=
  match mapGet cache role with
  | some cached =>
    if now < cached.expiresAt then
      ⟨.ok cached.token, cache, 0⟩
    else
      proxyAuthPath now proxyUsers authOutcome (mapDelete cache role) role
  | none => proxyAuthPath now proxyUsers authOutcome cache role

/-- C5: while the cached entry for `r` is fresh, `getProxyJWT` returns the
identical token on two successive calls with no authentication call and no
cache change; once the expiry has passed the entry is evicted and exactly
one re-authentication runs, whose fresh token (not the stale one) is
returned and cached. -/
theorem getProxyJWT_cache_spec
    (now1 now2 : Nat) (pus : List ProxyUser) (ao1 ao2 : Except String String)
    (cache : List (String × CachedJWT)) (r : String) (c : CachedJWT)
    (pu : ProxyUser) (jwt : String)
    (hget : mapGet cache r = some c) :
    (now1 < c.expiresAt → now2 < c.expiresAt →
      getProxyJWT now1 pus ao1 cache r = ⟨.ok c.token, cache, 0⟩ ∧
      getProxyJWT now2 pus ao2 (getProxyJWT now1 pus ao1 cache r).cache r
        = ⟨.ok c.token, cache, 0⟩) ∧
    (¬ now1 < c.expiresAt → pus.find? (fun u => u.role == r) = some pu →
      ao1 = .ok jwt →
      getProxyJWT now1 pus ao1 cache r
        = ⟨.ok jwt, mapSet (mapDelete cache r) r ⟨jwt, now1 + sixDaysMs⟩, 1⟩) ∧
    (¬ now1 < c.expiresAt → ∀ t, (getProxyJWT now1 pus ao1 cache r).result = .ok t →
      ao1 = .ok t ∧ (getProxyJWT now1 pus ao1 cache r).authCalls = 1) := by
  refine ⟨?_, ?_, ?_⟩
  · intro h1 h2
    have e1 : getProxyJWT now1 pus ao1 cache r = ⟨.ok c.token, cache, 0⟩ := by
      simp [getProxyJWT, hget, h1]
    refine ⟨e1, ?_⟩
    rw [e1]
    simp [getProxyJWT, hget, h2]
  · intro h1 hpu hao
    simp [getProxyJWT, hget, h1, proxyAuthPath, hpu, hao, cacheProxyJWT]
  · intro h1 t hres
    have hres' : (proxyAuthPath now1 pus ao1 (mapDelete cache r) r).result = .ok t ∧
        (getProxyJWT now1 pus ao1 cache r).authCalls
          = (proxyAuthPath now1 pus ao1 (mapDelete cache r) r).authCalls := by
      constructor
      · rw [← hres]; simp [getProxyJWT, hget, h1]
      · simp [getProxyJWT, hget, h1]
    obtain ⟨hr, hc⟩ := hres'
    rw [hc]
    unfold proxyAuthPath at hr ⊢
    cases hfind : pus.find? (fun u => u.role == r) with
    | none => rw [hfind] at hr; simp at hr
    | some p =>
      rw [hfind] at hr
      cases hao : ao1 with
      | ok j => rw [hao] at hr; simp at hr; simp [hr]
      | error m => rw [hao] at hr; simp at hr

/-- Witness for C5 at a concrete cache state: a fresh hit at times 50 and 60
on an entry expiring at 100, and an expired call at time 200 that evicts and
re-authenticates once. -/
theorem getProxyJWT_cache_spec_witness :
    (getProxyJWT 50 [⟨"e", "p", "admin"⟩] (.ok "tokB")
        [("admin", ⟨"tokA", 100⟩)] "admin" = ⟨.ok "tokA", [("admin", ⟨"tokA", 100⟩)], 0⟩) ∧
    (getProxyJWT 200 [⟨"e", "p", "admin"⟩] (.ok "tokB")
        [("admin", ⟨"tokA", 100⟩)] "admin"
      = ⟨.ok "tokB", [("admin", ⟨"tokB", 200 + sixDaysMs⟩)], 1⟩) := by
  have h := getProxyJWT_cache_spec 50 60 [⟨"e", "p", "admin"⟩] (.ok "tokB") (.ok "tokB")
    [("admin", ⟨"tokA", 100⟩)] "admin" ⟨"tokA", 100⟩ ⟨"e", "p", "admin"⟩ "tokB" (by decide)
  have h2 := getProxyJWT_cache_spec 200 60 [⟨"e", "p", "admin"⟩] (.ok "tokB") (.ok "tokB")
    [("admin", ⟨"tokA", 100⟩)] "admin" ⟨"tokA", 100⟩ ⟨"e", "p", "admin"⟩ "tokB" (by decide)
  exact ⟨(h.1 (by decide) (by decide)).1, h2.2.1 (by decide) (by decide) rfl⟩

/-- `ProxyUserService.getApiTokenForRole`: normalize the role name to a key,
look up the configured per-role API token, and return it only when it is
present and non-blank. -/
def getApiTokenForRole (apiTokens : List (String × String)) (role : String) :
    Option String :=
  let roleKey :=
    if jsToLower role == "super admin" then "admin"
    else if jsToLower role == "editor" then "editor"
    else if jsToLower role == "author" then "author"
    else if jsToLower role == "viewer" then "viewer"
    else role
  match mapGet apiTokens roleKey with
  | some apiToken => if apiToken == "" || jsTrim apiToken == "" then none else some apiToken
  | none => none

/-- A url addresses the token-scoped resource family when it contains
the substring matched by `url.includes` in the source. -/
def isApiPath (url : String) : Bool := strIncludes url "/api/"

structure FwdHeaders where
  authorization : String
  contentType : String
  accept : Option String
deriving DecidableEq

structure FwdPrep where
  headers : FwdHeaders
  cache : List (String × CachedJWT)
  authCalls : Nat

/-- `ProxyUserService.forwardRequestToStrapi`, up to the outbound HTTP call:
the credential-selection and header-construction logic.  On an `/api/` path
the per-role API token is used (serialized as the JS string "null" when the
lookup yields null); otherwise the session JWT from the credential cache is
used.  The axios call itself and the response are external. -/
def forwardRequestToStrapi (now : Nat) (apiTokens : List (String × String))
    (proxyUsers : List ProxyUser) (authOutcome : Except String String)
    (cache : List (String × CachedJWT)) (url : String) (proxyRole : String) :
    Except String FwdPrep :=
  if isApiPath url then
    .ok ⟨⟨"Bearer " ++ (getApiTokenForRole apiTokens proxyRole).getD "null",
          "application/json", some "application/json"⟩,
         cache, 0⟩
  else
    match (getProxyJWT now proxyUsers authOutcome cache proxyRole).result with
    | .ok jwt =>
      .ok ⟨⟨"Bearer " ++ jwt, "application/json", none⟩,
           (getProxyJWT now proxyUsers authOutcome cache proxyRole).cache,
           (getProxyJWT now proxyUsers authOutcome cache proxyRole).authCalls⟩
    | .error e => .error e

/-- C3: when the path addresses the token-scoped `/api/` family and the
per-role API token is configured and non-empty, that token is used with no
credential-cache access; when the path is outside that family, the session
token obtained from the credential cache (`getProxyJWT`) is used; and every
successfully forwarded request carries `Authorization: Bearer <token>` and
`Content-Type: application/json`. -/
theorem forward_credential_selection (now : Nat) (apiTokens : List (String × String))
    (pus : List ProxyUser) (ao : Except String String)
    (cache : List (String × CachedJWT)) (url proxyRole : String) :
    (∀ t, isApiPath url = true → getApiTokenForRole apiTokens proxyRole = some t →
      forwardRequestToStrapi now apiTokens pus ao cache url proxyRole
        = .ok ⟨⟨"Bearer " ++ t, "application/json", some "application/json"⟩, cache, 0⟩) ∧
    (∀ jwt, isApiPath url = false →
      (getProxyJWT now pus ao cache proxyRole).result = .ok jwt →
      forwardRequestToStrapi now apiTokens pus ao cache url proxyRole
        = .ok ⟨⟨"Bearer " ++ jwt, "application/json", none⟩,
               (getProxyJWT now pus ao cache proxyRole).cache,
               (getProxyJWT now pus ao cache proxyRole).authCalls⟩) ∧
    (∀ fp, forwardRequestToStrapi now apiTokens pus ao cache url proxyRole = .ok fp →
      fp.headers.contentType = "application/json" ∧
      ∃ tk, fp.headers.authorization = "Bearer " ++ tk) := by
  refine ⟨?_, ?_, ?_⟩
  · intro t hapi htok
    simp [forwardRequestToStrapi, hapi, htok]
  · intro jwt hapi hjwt
    simp [forwardRequestToStrapi, hapi, hjwt]
  · intro fp hfp
    unfold forwardRequestToStrapi at hfp
    by_cases hapi : isApiPath url = true
    · rw [if_pos hapi] at hfp
      simp at hfp
      refine ⟨?_, ⟨(getApiTokenForRole apiTokens proxyRole).getD "null", ?_⟩⟩ <;>
        rw [← hfp]
    · rw [if_neg hapi] at hfp
      cases hres : (getProxyJWT now pus ao cache proxyRole).result with
      | ok jwt =>
        rw [hres] at hfp
        simp at hfp
        refine ⟨?_, ⟨jwt, ?_⟩⟩ <;> rw [← hfp]
      | error e => rw [hres] at hfp; simp at hfp

/-- Witness for C3: an `/api/` path with a configured token, an `/admin/`
path served from a warm credential cache, and the header shape of both. -/
theorem forward_credential_selection_witness :
    (forwardRequestToStrapi 0 [("viewer", "vtok")] [] (.error "cold") []
        "/api/articles" "viewer"
      = .ok ⟨⟨"Bearer vtok", "application/json", some "application/json"⟩, [], 0⟩) ∧
    (forwardRequestToStrapi 10 [("viewer", "vtok")] [] (.error "cold")
        [("admin", ⟨"ajwt", 99⟩)] "/admin/login-check" "admin"
      = .ok ⟨⟨"Bearer ajwt", "application/json", none⟩, [("admin", ⟨"ajwt", 99⟩)], 0⟩) := by
  have h1 := (forward_credential_selection 0 [("viewer", "vtok")] [] (.error "cold") []
    "/api/articles" "viewer").1 "vtok" (by decide) (by decide)
  have h2 := (forward_credential_selection 10 [("viewer", "vtok")] [] (.error "cold")
    [("admin", ⟨"ajwt", 99⟩)] "/admin/login-check" "admin").2.1 "ajwt" (by decide) rfl
  have hq : getProxyJWT 10 [] (.error "cold") [("admin", ⟨"ajwt", 99⟩)] "admin"
      = ⟨.ok "ajwt", [("admin", ⟨"ajwt", 99⟩)], 0⟩ := rfl
  exact ⟨h1, by rw [h2, hq]; rfl⟩

/- ------------------------------------------------------------------ -/
/- AzureEasyAuthStrategy (src/auth/strategies/azure-easy-auth.strategy.ts) -/
/- ------------------------------------------------------------------ -/

structure AppUser where
  id : String
  username : String
  email : String
  role : String
  blocked : Bool
  authKey : Option String
deriving DecidableEq

structure AzureClaim where
  typ : String
  val : String
deriving DecidableEq

/-- The decoded `X-MS-CLIENT-PRINCIPAL` header body (base64/JSON transport
decoding is outside the model). -/
structure ClientPrincipal where
  auth_typ : Option String := none
  name_typ : Option String := none
  role_typ : Option String := none
  claims : List AzureClaim := []
deriving DecidableEq

def emailClaimTyp : String := "http://schemas.xmlsoap.org/ws/2005/05/identity/claims/emailaddress"
def nameClaimTyp : String := "http://schemas.xmlsoap.org/ws/2005/05/identity/claims/name"
def nameIdClaimTyp : String := "http://schemas.xmlsoap.org/ws/2005/05/identity/claims/nameidentifier"
def roleClaimTyp : String := "http://schemas.microsoft.com/ws/2008/06/identity/claims/role"

/-- `claims.find` over the two accepted type synonyms for one field. -/
def findClaim (claims : List AzureClaim) (t1 t2 : String) : Option AzureClaim :=
  claims.find? (fun c => c.typ == t1 || c.typ == t2)

structure AzureAuthResult where
  userId : String
  email : String
  username : String
  role : String
  authKey : Option String
  authType : String
deriving DecidableEq

/-- The TypeORM `findOne({where: [{authKey}, {email}]})` disjunctive lookup
(an undefined operand matches nothing). -/
def azureFindUser (users : List AppUser) (authKey email : Option String) :
    Option AppUser :=
  users.find? (fun u =>
    (match authKey with
     | some a => u.authKey == some a
     | none => false) ||
    (match email with
     | some e => u.email == e
     | none => false))

/-- The redundant second lookup by email alone (`if (!user && email)`). -/
def azureLookup (users : List AppUser) (authKey email : Option String) :
    Option AppUser :=
  match azureFindUser users authKey email with
  | some u => some u
  | none =>
    if tsTruthy email then
      users.find? (fun u =>
        match email with
        | some e => u.email == e
        | none => false)
    else none

/-- `usersRepository.save(user)`: persist the updated record under its
primary key. -/
def saveUser (users : List AppUser) (u : AppUser) : List AppUser :=
  users.map (fun w => if w.id == u.id then u else w)

/-- Azure-role-to-application-role mapping by substring containment, falling
back to the stored role (`user.role || viewer`) when no role claim came in. -/
def mapAzureRole (storedRole : String) (roles : List String) : String :=
  match roles with
  | [] => jsOrSS storedRole "viewer"
  | r0 :: _ =>
    let azureRole := jsToLower r0
    if strIncludes azureRole "admin" || strIncludes azureRole "administrator" then "admin"
    else if strIncludes azureRole "editor" then "editor"
    else if strIncludes azureRole "author" then "author"
    else "viewer"

/-- Claim extraction section of `AzureEasyAuthStrategy.validate`:
produces (email, authKey, roles). -/
def azureExtractIdentity (p : ClientPrincipal) :
    Option String × Option String × List String :=
  let emailClaim := findClaim p.claims emailClaimTyp "email"
  let nameClaim := findClaim p.claims nameClaimTyp "name"
  let nameIdentifierClaim := findClaim p.claims nameIdClaimTyp "sub"
  let rolesClaim := findClaim p.claims roleClaimTyp "roles"
  let email := tsOr (emailClaim.map AzureClaim.val)
    (tsOr (nameClaim.map AzureClaim.val) (nameIdentifierClaim.map AzureClaim.val))
  let authKey := tsOr (nameIdentifierClaim.map AzureClaim.val) email
  let roles :=
    match rolesClaim with
    | some rc => if rc.val == "" then [] else (splitOnComma rc.val.toList).map String.mk
    | none => []
  (email, authKey, roles)

/-- The database-facing tail of `AzureEasyAuthStrategy.validate`: identifier
check, user lookup, blocked check, one-time authKey binding, role mapping.
Returns the authenticated identity together with the updated user table. -/
def azureValidateCore (users : List AppUser) (email authKey : Option String)
    (roles : List String) : Except String (AzureAuthResult × List AppUser) :=
  if !tsTruthy email && !tsTruthy authKey then
    .error "Invalid Azure Easy Auth principal: missing user identifier"
  else
    match azureLookup users authKey email with
    | none => .error "User not found in database"
    | some user =>
      if user.blocked then .error "Account is blocked"
      else
        if !tsTruthy user.authKey && tsTruthy authKey then
          .ok ({ userId := user.id, email := user.email, username := user.username,
                 role := mapAzureRole user.role roles, authKey := authKey,
                 authType := "azure-easy-auth" },
               saveUser users { user with authKey := authKey })
        else
          .ok ({ userId := user.id, email := user.email, username := user.username,
                 role := mapAzureRole user.role roles, authKey := user.authKey,
                 authType := "azure-easy-auth" },
               users)

/-- `AzureEasyAuthStrategy.validate` for a present header, over the decoded
principal. -/
def azureValidate (users : List AppUser) (p : ClientPrincipal) :
    Except String (AzureAuthResult × List AppUser) :=
  azureValidateCore users (azureExtractIdentity p).1 (azureExtractIdentity p).2.1
    (azureExtractIdentity p).2.2

/- ------------------------------------------------------------------ -/
/- Auth guards (src/auth/guards/azure-easy-auth.guard.ts)             -/
/- ------------------------------------------------------------------ -/

/-- `AzureEasyAuthGuard.canActivate`: skip (false) without the header;
otherwise succeed exactly when the strategy returns a user (the guard also
creates a session for that user — a side effect not consulted by the
combinator).  Strategy errors are all UnauthorizedException and re-thrown. -/
def azureGuardCanActivate (hasAzureHeader : Bool)
    (validateOutcome : Except String (Option AzureAuthResult)) : Except String Bool :=
  if !hasAzureHeader then .ok false
  else
    match validateOutcome with
    | .ok (some _) => .ok true
    | .ok none => .error "Azure Easy Auth authentication failed"
    | .error e => .error e

structure CombinedOutcome where
  result : Except String Bool
  jwtConsulted : Bool

/-- `CombinedAuthGuard.canActivate`: platform (Azure) strategy first when its
header is present, JWT fallback second; `jwtConsulted` records whether the
JWT guard was invoked. -/
def combinedCanActivate (hasAzureHeader hasJwtToken : Bool)
    (azureOutcome : Except String (Option AzureAuthResult))
    (jwtOutcome : Except String Bool) : CombinedOutcome :=
  let jwtPhase : CombinedOutcome :=
    if hasJwtToken then
      match jwtOutcome with
      | .ok b => ⟨.ok b, true⟩
      | .error e =>
        if !hasAzureHeader then ⟨.error e, true⟩
        else ⟨.error "Authentication failed", true⟩
    else ⟨.error "No authentication credentials provided", false⟩
  if hasAzureHeader then
    match azureGuardCanActivate hasAzureHeader azureOutcome with
    | .ok true => ⟨.ok true, false⟩
    | .ok false => jwtPhase
    | .error e => if !hasJwtToken then ⟨.error e, false⟩ else jwtPhase
  else jwtPhase

theorem azureFindUser_mem (users : List AppUser) (a e : Option String) (u : AppUser)
    (h : azureFindUser users a e = some u) : u ∈ users :=
  List.mem_of_find?_eq_some h

theorem azureLookup_mem (users : List AppUser) (a e : Option String) (u : AppUser)
    (h : azureLookup users a e = some u) : u ∈ users := by
  unfold azureLookup at h
  cases hf : azureFindUser users a e with
  | some v =>
    rw [hf] at h
    injection h with hvu
    subst hvu
    exact azureFindUser_mem users a e _ hf
  | none =>
    rw [hf] at h
    cases ht : tsTruthy e with
    | true => rw [ht] at h; simp only [if_true] at h; exact List.mem_of_find?_eq_some h
    | false => rw [ht] at h; simp at h

theorem saveUser_id_unique (users : List AppUser) (u2 w : AppUser)
    (hw : w ∈ saveUser users u2) (hid : w.id = u2.id) : w = u2 := by
  unfold saveUser at hw
  obtain ⟨w0, hw0, heq⟩ := List.mem_map.mp hw
  by_cases hc : (w0.id == u2.id) = true
  · rw [if_pos hc] at heq; exact heq.symm
  · rw [if_neg hc] at heq
    subst heq
    exact absurd hid (by simpa using hc)

theorem azureValidateCore_fixed_authKey
    (users : List AppUser) (email authKey : Option String) (roles : List String)
    (res : AzureAuthResult) (users1 : List AppUser) (uid k : String)
    (hall : ∀ w, w ∈ users → w.id = uid → w.authKey = some k) (hk : ¬ k = "")
    (h : azureValidateCore users email authKey roles = .ok (res, users1))
    (hres : res.userId = uid) :
    users1 = users ∧ res.authKey = some k := by
  unfold azureValidateCore at h
  split at h
  · simp at h
  · split at h
    · simp at h
    next user hlk =>
      have hmem : user ∈ users := azureLookup_mem users authKey email user hlk
      split at h
      · simp at h
      · split at h
        next hc =>
          simp only [Except.ok.injEq, Prod.mk.injEq] at h
          obtain ⟨hres1, husers⟩ := h
          have huid : user.id = uid := by rw [← hres1] at hres; exact hres
          have hua := hall user hmem huid
          rw [hua] at hc
          simp [tsTruthy, beq_iff_eq, hk] at hc
        next hc =>
          simp only [Except.ok.injEq, Prod.mk.injEq] at h
          obtain ⟨hres1, husers⟩ := h
          have huid : user.id = uid := by rw [← hres1] at hres; exact hres
          have hua := hall user hmem huid
          exact ⟨husers.symm, by rw [← hres1]; exact hua⟩

/-- The decoded spec-example principal: claims
`{emailaddress: a@b.com, nameidentifier: ext-1}`. -/
def examplePrincipal1 : ClientPrincipal :=
  { claims := [⟨emailClaimTyp, "a@b.com"⟩, ⟨nameIdClaimTyp, "ext-1"⟩] }

/-- C6: a successful platform-header resolution for a matched user whose
authKey is null stores the observed external identifier (ext-1) and returns
the role of the stored user; afterwards every later successful resolution for
that user — whatever external identifier it presents — leaves both the user
table and the stored authKey unchanged. -/
theorem azure_authkey_set_once
    (users : List AppUser) (u : AppUser) (i : Nat)
    (hu : users[i]? = some u)
    (hak : u.authKey = none) (hbl : u.blocked = false)
    (hfind : azureLookup users (some "ext-1") (some "a@b.com") = some u) :
    ∃ r1 users1,
      azureValidate users examplePrincipal1 = .ok (r1, users1) ∧
      r1.userId = u.id ∧
      r1.role = jsOrSS u.role "viewer" ∧
      r1.authKey = some "ext-1" ∧
      users1[i]? = some { u with authKey := some "ext-1" } ∧
      (∀ p2 r2 users2, azureValidate users1 p2 = .ok (r2, users2) →
        r2.userId = u.id → users2 = users1 ∧ r2.authKey = some "ext-1") := by
  have hex : azureExtractIdentity examplePrincipal1
      = (some "a@b.com", some "ext-1", ([] : List String)) := by decide
  have hcore : azureValidate users examplePrincipal1
      = azureValidateCore users (some "a@b.com") (some "ext-1") [] := by
    unfold azureValidate
    rw [hex]
  have hval : azureValidateCore users (some "a@b.com") (some "ext-1") []
      = .ok ({ userId := u.id, email := u.email, username := u.username,
               role := mapAzureRole u.role [], authKey := some "ext-1",
               authType := "azure-easy-auth" },
             saveUser users { u with authKey := some "ext-1" }) := by
    unfold azureValidateCore
    rw [show (!tsTruthy (some "a@b.com") && !tsTruthy (some "ext-1")) = false from by decide,
        hfind]
    simp [hbl, hak, tsTruthy, show tsTruthy (some "ext-1") = true from by decide]
  refine ⟨_, saveUser users { u with authKey := some "ext-1" },
    by rw [hcore, hval], rfl, rfl, rfl, ?_, ?_⟩
  · unfold saveUser
    rw [List.getElem?_map, hu]
    simp
  · intro p2 r2 users2 h2 huid
    have hall : ∀ w, w ∈ saveUser users { u with authKey := some "ext-1" } →
        w.id = u.id → w.authKey = some "ext-1" := by
      intro w hw hid
      have := saveUser_id_unique users { u with authKey := some "ext-1" } w hw hid
      rw [this]
    exact azureValidateCore_fixed_authKey _ _ _ _ r2 users2 u.id "ext-1"
      hall (by decide) h2 huid

def exUser : AppUser :=
  { id := "u1", username := "alice", email := "a@b.com", role := "editor",
    blocked := false, authKey := none }

/-- Witness for C6 on a one-user table. -/
theorem azure_authkey_set_once_witness :
    ∃ r1 users1,
      azureValidate [exUser] examplePrincipal1 = .ok (r1, users1) ∧
      r1.userId = exUser.id ∧
      r1.role = jsOrSS exUser.role "viewer" ∧
      r1.authKey = some "ext-1" ∧
      users1[0]? = some { exUser with authKey := some "ext-1" } ∧
      (∀ p2 r2 users2, azureValidate users1 p2 = .ok (r2, users2) →
        r2.userId = exUser.id → users2 = users1 ∧ r2.authKey = some "ext-1") :=
  azure_authkey_set_once [exUser] exUser 0 rfl rfl rfl (by decide)

/-- C2: a request carrying a valid platform-identity header (the Azure
strategy resolves a user) is authenticated by the platform strategy with the
JWT strategy never consulted — whatever the bearer token would have said —
and a request carrying neither credential fails with the no-credentials
message. -/
theorem combined_platform_first (hasJwt : Bool)
    (azureOutcome : Except String (Option AzureAuthResult))
    (jwtOutcome : Except String Bool) :
    (∀ u, azureOutcome = .ok (some u) →
      combinedCanActivate true hasJwt azureOutcome jwtOutcome
        = ⟨.ok true, false⟩) ∧
    (∀ ao jo, combinedCanActivate false false ao jo
      = ⟨.error "No authentication credentials provided", false⟩) := by
  constructor
  · intro u h
    simp [combinedCanActivate, azureGuardCanActivate, h]
  · intro ao jo
    simp [combinedCanActivate]

/-- Witness for C2: both credentials present and valid; Azure wins and the
JWT guard is not consulted. -/
theorem combined_platform_first_witness :
    combinedCanActivate true true
      (.ok (some ⟨"u1", "a@b.com", "alice", "admin", none, "azure-easy-auth"⟩))
      (.ok true) = ⟨.ok true, false⟩ :=
  (combined_platform_first true
    (.ok (some ⟨"u1", "a@b.com", "alice", "admin", none, "azure-easy-auth"⟩))
    (.ok true)).1 _ rfl

/- ------------------------------------------------------------------ -/
/- ContentService (content.service.ts): content-type name resolution  -/
/- ------------------------------------------------------------------ -/

structure CTInfo where
  singularName : Option String := none
  pluralName : Option String := none
  displayName : Option String := none
  description : Option String := none
deriving DecidableEq

/-- The schema-shaped duck-typed fields the resolver reads from a
content-type-builder entry (either on a nested `schema` object or on the
entry itself). -/
structure CTSchema where
  kind : Option String := none
  visible : Option Bool := none
  uid : Option String := none
  apiID : Option String := none
  singularName : Option String := none
  pluralName : Option String := none
  displayName : Option String := none
  description : Option String := none
  info : Option CTInfo := none
deriving DecidableEq

/-- One entry of the upstream catalog: its own top-level fields (`flat`)
and the optional nested `schema` object. -/
structure StrapiType where
  flat : CTSchema := {}
  schema : Option CTSchema := none
deriving DecidableEq

/-- JS `strapiType.schema || strapiType` (objects are always truthy). -/
def schemaOf (t : StrapiType) : CTSchema := t.schema.getD t.flat

/-- The recognized envelope shapes of the catalog response (§ the ordered
shape checks in `getContentTypes`). -/
inductive CatalogResponse where
  | topArray (items : List StrapiType)
  | dataArray (items : List StrapiType)
  | dataDataArray (items : List StrapiType)
  | other
deriving DecidableEq

/-- The ordered shape detection: `Array.isArray(response?.data)`, then
`response?.data?.data`, then `Array.isArray(response)`; anything else is
unrecognized. -/
def extractCatalog : CatalogResponse → Option (List StrapiType)
  | CatalogResponse.dataArray items => some items
  | CatalogResponse.dataDataArray items => some items
  | CatalogResponse.topArray items => some items
  | CatalogResponse.other => none

/-- The filter over catalog entries: collection or single types whose
visibility flag is not explicitly false. -/
def ctKeep (t : StrapiType) : Bool :=
  let schema := schemaOf t
  let kind := tsOr schema.kind t.flat.kind
  let visible := schema.visible.getD true
  (kind == some "collectionType" || kind == some "singleType") && visible

/-- The `uid.split`-based apiID extraction for identifiers of the form
`scope::group.name`. -/
def parseUidApiID (uid : String) : String :=
  let uidParts := (splitOnDC uid.toList).map String.mk
  if uidParts.length > 1 then
    let afterDoubleColon := (uidParts.get? 1).getD ""
    match jsIndexOf '.' afterDoubleColon.toList with
    | some dotIndex =>
      if dotIndex > 0 then String.mk (afterDoubleColon.toList.take dotIndex)
      else afterDoubleColon
    | none => afterDoubleColon
  else uid

structure ContentTypeDesc where
  id : String
  name : String
  singularName : String
  pluralName : Option String
  displayName : String
  description : String
deriving DecidableEq

/-- The per-entry mapping of `getContentTypes`: stable-identifier
extraction and strictly-declared singular/plural names (`pluralName || null`
— no synthesis). -/
def mapContentType (t : StrapiType) : ContentTypeDesc :=
  let schema := schemaOf t
  let uid := tsOr t.flat.uid (tsOr schema.uid t.flat.apiID)
  let apiID := tsOr t.flat.apiID schema.apiID
  let parsed : Option String :=
    if !(tsTruthy apiID) && tsTruthy uid then some (parseUidApiID (uid.getD ""))
    else apiID
  let finalApiID : String := if tsTruthy parsed then parsed.getD "" else "unknown"
  let info : CTInfo := schema.info.getD (t.flat.info.getD {})
  let singularName := tsOrStr (tsOr info.singularName schema.singularName) finalApiID
  let pluralName0 := tsOr info.pluralName schema.pluralName
  ⟨tsOrStr uid finalApiID,
   finalApiID,
   singularName,
   (if tsTruthy pluralName0 then pluralName0 else none),
   tsOrStr (tsOr (tsOr schema.displayName info.displayName) (some finalApiID)) "Unknown",
   tsOrStr (tsOr info.description schema.description) ""⟩

/-- `ContentService.getContentTypes`: fetch the catalog (the upstream call
outcome is the `resp` parameter), detect the envelope shape — an
unrecognized shape logs a warning and returns the empty list — then filter
and map.  Upstream failures propagate as errors. -/
def getContentTypes (resp : Except String CatalogResponse) :
    Except String (List ContentTypeDesc) :=
  match resp with
  | .error e => .error e
  | .ok r =>
    match extractCatalog r with
    | none => .ok []
    | some contentTypesArray => .ok ((contentTypesArray.filter ctKeep).map mapContentType)

/-- The `find` of `getContentType`, which dereferences `type.schema`
unconditionally: an entry without a `schema` object raises a TypeError
(caught by the surrounding handler). -/
def findBySchemaPlural (slug : String) : List StrapiType → Except Unit (Option StrapiType)
  | [] => .ok none
  | t :: rest =>
    match t.schema with
    | none => .error ()
    | some sch => if sch.pluralName == some slug then .ok (some t) else findBySchemaPlural slug rest

structure ResolvedContentType where
  id : Option String
  name : Option String
  singularName : Option String
  pluralName : String
  displayName : Option String
  description : String
deriving DecidableEq

/-- `ContentService.getContentType`: scan the filtered catalog for the entry
whose `schema.pluralName` equals the slug and rebuild the descriptor.  The
returned `pluralName` chain ends in the template literal
`(contentType.apiID || strapiType.apiID) + "s"`.  Error messages are
modelled without the quoting of the original template literals. -/
def getContentType (resp : Except String CatalogResponse) (slug : String) :
    Except String ResolvedContentType :=
  match resp with
  | .error e => .error ("Failed to get content type " ++ slug ++ ": " ++ e)
  | .ok r =>
    let contentTypesArray := (extractCatalog r).getD []
    let filteredContentTypes := contentTypesArray.filter ctKeep
    match findBySchemaPlural slug filteredContentTypes with
    | .error _ => .error ("Content type " ++ slug ++ " not found: type error")
    | .ok none => .error ("Content type " ++ slug ++ " not found")
    | .ok (some contentType) =>
      let strapiType := schemaOf contentType
      let info : CTInfo := strapiType.info.getD (contentType.flat.info.getD {})
      .ok ⟨tsOr contentType.flat.uid (tsOr strapiType.uid strapiType.apiID),
           tsOr contentType.flat.apiID strapiType.apiID,
           tsOr info.singularName
             (tsOr strapiType.singularName (tsOr contentType.flat.apiID strapiType.apiID)),
           tsOrStr (tsOr info.pluralName strapiType.pluralName)
             (jsUndef (tsOr contentType.flat.apiID strapiType.apiID) ++ "s"),
           tsOr (strapiType.info.bind CTInfo.displayName)
             (tsOr (contentType.flat.info.bind CTInfo.displayName) strapiType.apiID),
           tsOrStr (tsOr (strapiType.info.bind CTInfo.description)
             (contentType.flat.info.bind CTInfo.description)) ""⟩

structure CTCacheEntry where
  singularName : String
  pluralName : String
deriving DecidableEq

/-- The message of the internal missing-plural throw in `getPluralName`
(single quotes of the original literal omitted). -/
def schemaErrorMsg (singular : String) : String :=
  "Content type " ++ singular ++
    " is missing pluralName in Strapi schema. Please configure pluralName in Strapi content type builder."

/-- The message of the final not-found throw in `getPluralName`. -/
def notFoundMsg (param : String) : String :=
  "Content type " ++ param ++
    " not found in Strapi. Please ensure the content type exists and has a pluralName configured."

/-- The case-insensitive match of `getPluralName` against name, singular or
plural (a null plural compares unequal, as in JS). -/
def ctMatchesParam (paramLower : String) (ct : ContentTypeDesc) : Bool :=
  jsToLower ct.name == paramLower || jsToLower ct.singularName == paramLower ||
    (match ct.pluralName with
     | some p => jsToLower p == paramLower
     | none => false)

/-- The cache population on a successful match: keys are the lower-cased
singular, plural and name (each only when truthy). -/
def cacheAfterMatch (cache : List (String × CTCacheEntry))
    (singular plural name : String) : List (String × CTCacheEntry) :=
  let c1 := if singular == "" then cache else mapSet cache (jsToLower singular) ⟨singular, plural⟩
  let c2 := if plural == "" then c1 else mapSet c1 (jsToLower plural) ⟨singular, plural⟩
  if name == "" then c2 else mapSet c2 (jsToLower name) ⟨singular, plural⟩

structure PluralResult where
  result : Except String String
  cache : List (String × CTCacheEntry)

/-- The body of the try block of `getPluralName` together with the final
throw: every throw inside the try — the catalog fetch failing or the
missing-plural schema error — is caught, logged, and falls through to the
same final not-found throw, as does a no-match scan. -/
def getPluralNameFetch (cache : List (String × CTCacheEntry))
    (resp : Except String CatalogResponse) (contentTypeParam paramLower : String) :
    PluralResult :=
  match getContentTypes resp with
  | .error _ => ⟨.error (notFoundMsg contentTypeParam), cache⟩
  | .ok contentTypes =>
    match contentTypes.find? (ctMatchesParam paramLower) with
    | none => ⟨.error (notFoundMsg contentTypeParam), cache⟩
    | some matched =>
      match matched.pluralName with
      | none => ⟨.error (notFoundMsg contentTypeParam), cache⟩
      | some plural =>
        if plural == "" then ⟨.error (notFoundMsg contentTypeParam), cache⟩
        else
          ⟨.ok plural,
           cacheAfterMatch cache (jsOrSS matched.singularName matched.name) plural matched.name⟩

/-- `ContentService.getPluralName`: cache hit (with truthy plural) or the
fetch-and-scan path. -/
def getPluralName (cache : List (String × CTCacheEntry))
    (resp : Except String CatalogResponse) (contentTypeParam : String) : PluralResult :=
  match mapGet cache (jsToLower contentTypeParam) with
  | some cached =>
    if cached.pluralName == "" then
      getPluralNameFetch cache resp contentTypeParam (jsToLower contentTypeParam)
    else ⟨.ok cached.pluralName, cache⟩
  | none => getPluralNameFetch cache resp contentTypeParam (jsToLower contentTypeParam)

/-- C1 failing input (code bug): a catalog entry whose schema declares the
empty string as its plural (matched by the empty slug) and apiID article. -/
def ctBugInput : StrapiType :=
  { flat := {},
    schema := some { kind := some "collectionType", pluralName := some "", apiID := some "article" } }

/-- Second failing input for C1: as above with an empty apiID, so the
synthesized plural also equals input plus the letter s. -/
def ctBugInput2 : StrapiType :=
  { flat := {},
    schema := some { kind := some "collectionType", pluralName := some "", apiID := some "" } }

/-- C1 (code bug): `getContentType` synthesizes a plural.  On `ctBugInput`
with the empty slug it returns pluralName "articles" = apiID + "s" although
the schema declares the plural "" — and on `ctBugInput2` the result "s"
even equals input + "s" without "s" being the declared plural.  This
contradicts the no-synthesis invariant that `getPluralName` and
`getContentTypes` document and obey. -/
theorem getContentType_synthesizes_plural :
    getContentType (.ok (CatalogResponse.topArray [ctBugInput])) "" =
      .ok { id := some "article", name := some "article", singularName := some "article",
            pluralName := "articles", displayName := some "article", description := "" } ∧
    (schemaOf ctBugInput).pluralName = some "" ∧
    "articles" = jsUndef (schemaOf ctBugInput).apiID ++ "s" ∧
    getContentType (.ok (CatalogResponse.topArray [ctBugInput2])) "" =
      .ok { id := some "", name := some "", singularName := some "",
            pluralName := "s", displayName := some "", description := "" } ∧
    (schemaOf ctBugInput2).pluralName = some "" ∧
    "s" = "" ++ "s" := by
  exact ⟨rfl, rfl, rfl, rfl, rfl, rfl⟩

/-- C7 counterexample: on an unrecognized envelope shape `getContentTypes`
does not fail — it returns the empty list. -/
theorem getContentTypes_unrecognized_no_error :
    getContentTypes (.ok CatalogResponse.other) = .ok ([] : List ContentTypeDesc) ∧
    ∀ e, getContentTypes (.ok CatalogResponse.other) ≠ .error e := by
  refine ⟨rfl, ?_⟩
  intro e h
  simp [getContentTypes, extractCatalog] at h

/-- C7 (amended): for every catalog response whose envelope matches none of
the three recognized shapes, `getContentTypes` logs a warning and returns
the empty list — no best-effort field guessing, but also no explicit
unrecognized-shape error. -/
theorem getContentTypes_unrecognized_shape (r : CatalogResponse)
    (h : extractCatalog r = none) :
    getContentTypes (.ok r) = .ok ([] : List ContentTypeDesc) := by
  simp [getContentTypes, h]

/-- Witness for the amended C7 at the unrecognized shape. -/
theorem getContentTypes_unrecognized_shape_witness :
    getContentTypes (.ok CatalogResponse.other) = .ok ([] : List ContentTypeDesc) :=
  getContentTypes_unrecognized_shape CatalogResponse.other rfl

/-- C4 failing input: a visible collection type whose schema carries no
pluralName at all. -/
def ctMissingPlural : StrapiType :=
  { flat := {},
    schema := some { kind := some "collectionType", apiID := some "study" } }

/-- C4 counterexample: when the matched entry lacks a plural, the internal
schema error is caught by the surrounding catch and replaced by the same
generic not-found error used for a missing entry — no distinct SchemaError
surfaces. -/
theorem getPluralName_schema_error_masked :
    (getPluralName [] (.ok (CatalogResponse.topArray [ctMissingPlural])) "study").result
      = .error (notFoundMsg "study") ∧
    ¬ notFoundMsg "study" = schemaErrorMsg "study" := by
  exact ⟨rfl, by decide⟩

/-- C4 (amended): on a cache miss `getPluralName` never returns a guessed
value — a success returns exactly the declared pluralName of the matched
catalog entry — and it fails both when the matched entry lacks a truthy plural
and when nothing matches; but both failures surface the same generic
not-found error, the internal missing-plural schema error being caught and
masked rather than surfaced as a distinct error. -/
theorem getPluralName_amended (cache : List (String × CTCacheEntry))
    (resp : Except String CatalogResponse) (param : String)
    (cts : List ContentTypeDesc)
    (hmiss : mapGet cache (jsToLower param) = none)
    (hcts : getContentTypes resp = .ok cts) :
    (cts.find? (ctMatchesParam (jsToLower param)) = none →
      (getPluralName cache resp param).result = .error (notFoundMsg param)) ∧
    (∀ m, cts.find? (ctMatchesParam (jsToLower param)) = some m → m.pluralName = none →
      (getPluralName cache resp param).result = .error (notFoundMsg param)) ∧
    (∀ m p, cts.find? (ctMatchesParam (jsToLower param)) = some m → m.pluralName = some p →
      ¬ p = "" → (getPluralName cache resp param).result = .ok p) := by
  have hfetch : getPluralName cache resp param
      = getPluralNameFetch cache resp param (jsToLower param) := by
    unfold getPluralName
    rw [hmiss]
  refine ⟨?_, ?_, ?_⟩
  · intro hnone
    rw [hfetch]
    simp [getPluralNameFetch, hcts, hnone]
  · intro m hm hmp
    rw [hfetch]
    simp [getPluralNameFetch, hcts, hm, hmp]
  · intro m p hm hp hpne
    rw [hfetch]
    simp [getPluralNameFetch, hcts, hm, hp, hpne]

/-- Witness for the amended C4: the missing-plural entry yields the masked
generic error. -/
theorem getPluralName_amended_witness :
    (getPluralName [] (.ok (CatalogResponse.topArray [ctMissingPlural])) "study").result
      = .error (notFoundMsg "study") :=
  (getPluralName_amended [] (.ok (CatalogResponse.topArray [ctMissingPlural])) "study"
    [⟨"study", "study", "study", none, "study", ""⟩] rfl rfl).2.1
    ⟨"study", "study", "study", none, "study", ""⟩ rfl rfl

/- ------------------------------------------------------------------ -/
/- AuditService (src/content/audit.service.ts)                        -/
/- ------------------------------------------------------------------ -/

inductive AuditAction where
  | created
  | updated
  | deleted
deriving DecidableEq

structure AuditEntry where
  contentId : String
  action : AuditAction
  customUserId : Option String
  contentType : Option String := none
  contentName : Option String := none
  timestamp : Nat
deriving DecidableEq

/-- `AuditService.logOperation`: a pure INSERT — appends a new entry and
never modifies or removes existing ones. -/
def logOperation (log : List AuditEntry) (e : AuditEntry) : List AuditEntry :=
  log ++ [e]

/-- The `findOne({contentId, action: created}, order timestamp ASC)` query:
the earliest `created` entry for the content id (first on ties). -/
def earliestCreated (log : List AuditEntry) (contentId : String) : Option AuditEntry :=
  (log.filter (fun e => e.contentId == contentId && e.action == AuditAction.created)).foldl
    (fun acc e =>
      match acc with
      | none => some e
      | some a => if e.timestamp < a.timestamp then some e else acc) none

/-- `AuditService.getContentCreator`: the creator recorded by the earliest
`created` entry (`creatorLog?.customUserId || null`); a failing query is
caught and yields null. -/
def getContentCreator (q : Except Unit (List AuditEntry)) (contentId : String) :
    Option String :=
  match q with
  | .error _ => none
  | .ok log =>
    match earliestCreated log contentId with
    | none => none
    | some e => tsOr e.customUserId none

/-- `AuditService.isContentOwner`: false on a falsy user id, otherwise
strict equality against the creator. -/
def isContentOwner (q : Except Unit (List AuditEntry)) (contentId : String)
    (customUserId : Option String) : Bool :=
  match customUserId with
  | none => false
  | some uid =>
    if uid == "" then false
    else
      match getContentCreator q contentId with
      | none => false
      | some c => c == uid

/-- C9: with no prior `created` entry for `cid`, after user A creates and
user B later updates the same content id, A is the owner and B is not; and
appending any later non-`created` entry (updated/deleted) never changes the
recorded creator of any content id. -/
theorem audit_ownership (log0 : List AuditEntry) (cid A B : String) (t1 t2 : Nat)
    (hA : ¬ A = "") (hAB : ¬ A = B)
    (h0 : log0.filter (fun e => e.contentId == cid && e.action == AuditAction.created) = []) :
    isContentOwner (.ok (logOperation (logOperation log0 ⟨cid, .created, some A, none, none, t1⟩)
        ⟨cid, .updated, some B, none, none, t2⟩)) cid (some A) = true ∧
    isContentOwner (.ok (logOperation (logOperation log0 ⟨cid, .created, some A, none, none, t1⟩)
        ⟨cid, .updated, some B, none, none, t2⟩)) cid (some B) = false ∧
    (∀ (log : List AuditEntry) (e : AuditEntry) (cid2 : String),
      ¬ e.action = AuditAction.created →
      getContentCreator (.ok (logOperation log e)) cid2 = getContentCreator (.ok log) cid2) := by
  have hABeq : (A == "") = false := by simp [hA]
  have hfilter : (logOperation (logOperation log0 ⟨cid, .created, some A, none, none, t1⟩)
      ⟨cid, .updated, some B, none, none, t2⟩).filter
        (fun e => e.contentId == cid && e.action == AuditAction.created)
      = [⟨cid, .created, some A, none, none, t1⟩] := by
    simp [logOperation, List.filter_append, h0, List.filter,
      show (AuditAction.updated == AuditAction.created) = false from by decide]
  have hcreator : getContentCreator
      (.ok (logOperation (logOperation log0 ⟨cid, .created, some A, none, none, t1⟩)
        ⟨cid, .updated, some B, none, none, t2⟩)) cid = some A := by
    simp only [getContentCreator]
    unfold earliestCreated
    rw [hfilter]
    simp [tsOr, tsTruthy, hABeq]
  refine ⟨?_, ?_, ?_⟩
  · unfold isContentOwner
    rw [hcreator]
    simp [hABeq]
  · unfold isContentOwner
    rw [hcreator]
    by_cases hB : (B == "") = true
    · simp [hB]
    · simp [hB, hAB]
  · intro log e cid2 he
    have hae : (e.action == AuditAction.created) = false := by
      simp [he]
    have hsame : earliestCreated (log ++ [e]) cid2 = earliestCreated log cid2 := by
      unfold earliestCreated
      rw [List.filter_append]
      simp [List.filter, hae]
    simp only [getContentCreator, logOperation]
    rw [hsame]

/-- Witness for C9 on an empty initial log. -/
theorem audit_ownership_witness :
    isContentOwner (.ok (logOperation (logOperation []
        ⟨"doc1", .created, some "userA", none, none, 1⟩)
        ⟨"doc1", .updated, some "userB", none, none, 2⟩)) "doc1" (some "userA") = true ∧
    isContentOwner (.ok (logOperation (logOperation []
        ⟨"doc1", .created, some "userA", none, none, 1⟩)
        ⟨"doc1", .updated, some "userB", none, none, 2⟩)) "doc1" (some "userB") = false := by
  have h := audit_ownership [] "doc1" "userA" "userB" 1 2
    (by decide) (by decide) rfl
  exact ⟨h.1, h.2.1⟩

/-- C10: the ownership check is total and fail-closed — a null or empty
user id yields false, and a failed audit-log query makes the creator null,
so the ownership check yields false rather than raising. -/
theorem isContentOwner_fail_closed :
    (∀ (q : Except Unit (List AuditEntry)) (cid : String),
      isContentOwner q cid none = false) ∧
    (∀ (q : Except Unit (List AuditEntry)) (cid : String),
      isContentOwner q cid (some "") = false) ∧
    (∀ cid : String, getContentCreator (.error ()) cid = none) ∧
    (∀ (cid : String) (u : Option String), isContentOwner (.error ()) cid u = false) := by
  refine ⟨fun q cid => rfl, fun q cid => rfl, fun cid => rfl, ?_⟩
  intro cid u
  cases u with
  | none => rfl
  | some s =>
    by_cases hs : (s == "") = true
    · simp [isContentOwner, hs]
    · simp [isContentOwner, hs, getContentCreator]
